import Mathlib

/-!
Verification of the PR-review pipeline of the `autonomous_code_reviewer`
repository, shallowly embedded in Lean 4.

The embedding follows `review/services.py`, `review/views.py`,
`review/serializers.py` and `review/models.py`.  Pure Python functions are
translated to Lean functions; the Django view's database effects are modelled
as explicit state passing over a small database state; the completion
collaborator (LLM) and the HTTP layer appear as explicit oracles, as the code
only observes their success-or-failure and the returned text.
-/

/-! ## String helpers mirroring the Python primitives used by the code -/

/-- Test `startsWithAux pre s` : `pre` is a character-prefix of `s`
(the semantics of Python's `str.startswith`). -/
def startsWithAux : List Char → List Char → Bool
  | [], _ => true
  | _ :: _, [] => false
  | p :: ps, c :: cs => p == c && startsWithAux ps cs

/-- Python's `line.startswith(pre)`. -/
def pyStartsWith (s pre : String) : Bool :=
  startsWithAux pre.data s.data

/-- Python's `line[1:]`: drop the first character. -/
def strTail (s : String) : String :=
  String.mk (s.data.drop 1)

/-- Auxiliary for `pySplitLines`, accumulating the current line reversed. -/
def splitNlAux : List Char → List Char → List String
  | [], acc => [String.mk acc.reverse]
  | '\n' :: cs, acc => String.mk acc.reverse :: splitNlAux cs []
  | c :: cs, acc => splitNlAux cs (c :: acc)

/-- Python's `s.split('\n')` (separator split, empty pieces kept). -/
def pySplitLines (s : String) : List String :=
  splitNlAux s.data []

/-- Python's `'\n'.join(lines)`. -/
def joinNl : List String → String
  | [] => ""
  | [s] => s
  | s :: ss => s ++ "\n" ++ joinNl ss

/-- Python's `int()` on a string of decimal digits. -/
def digitsToNat (ds : List Char) : Nat :=
  ds.foldl (fun n c => n * 10 + (c.toNat - 48)) 0

/-- Python's `\s` character class (ASCII part; diff lines contain no other
whitespace because the text was already split on newlines). -/
def isPySpace (c : Char) : Bool :=
  c == ' ' || c == '\t' || c == '\n' || c == '\r' || c == '\x0b' || c == '\x0c'

/-- Consume a maximal run of `\s` characters (`\s*` in the hunk regex; the
following pattern element is never a whitespace character, so maximal munch is
exact). -/
def skipSpaces : List Char → List Char
  | [] => []
  | c :: cs => if isPySpace c then skipSpaces cs else c :: cs

/-- Consume an optional `,<digits>` group (`(?:,\d+)?` in the hunk regex; the
following pattern element can never begin with `,`, so the greedy choice is
exact). -/
def skipComma : List Char → List Char
  | ',' :: c :: cs => if c.isDigit then (c :: cs).dropWhile Char.isDigit else ',' :: c :: cs
  | cs => cs

/-- Attempt to match `@@\s*-(\d+)(?:,\d+)?\s*\+(\d+)(?:,\d+)?\s*@@` at the
start of the character list, returning the two captured numbers.  Every
quantifier in this pattern is effectively deterministic (see the comments on
`skipSpaces` and `skipComma`), so plain maximal munch implements the regex. -/
def hunkMatchAt (cs : List Char) : Option (Nat × Nat) :=
  match cs with
  | '@' :: '@' :: rest =>
    match skipSpaces rest with
    | '-' :: r2 =>
      let ds1 := r2.takeWhile Char.isDigit
      if ds1.isEmpty then none else
      let r3 := skipComma (r2.dropWhile Char.isDigit)
      match skipSpaces r3 with
      | '+' :: r6 =>
        let ds2 := r6.takeWhile Char.isDigit
        if ds2.isEmpty then none else
        let r7 := skipComma (r6.dropWhile Char.isDigit)
        match skipSpaces r7 with
        | '@' :: '@' :: _ => some (digitsToNat ds1, digitsToNat ds2)
        | _ => none
      | _ => none
    | _ => none
  | _ => none

/-- Search of the hunk-header pattern as `re.search` does: try every start position, first
match wins. -/
def hunkSearchAux : List Char → Option (Nat × Nat)
  | [] => none
  | c :: cs =>
    match hunkMatchAt (c :: cs) with
    | some r => some r
    | none => hunkSearchAux cs

/-- The call `re.search(r"@@\s*-(\d+)(?:,\d+)?\s*\+(\d+)(?:,\d+)?\s*@@", line)`,
returning `(oldStart, newStart)` when the line contains a hunk header. -/
def hunkSearch (line : String) : Option (Nat × Nat) :=
  hunkSearchAux line.data

/-! ## `PRReviewService.parse_diff_changes_detailed` (services.py lines 354-399) -/

/-- The running state of the diff-parsing loop: accumulated old-code lines,
new-code lines, change annotations, and the new-file line counter. -/
structure DiffParseState where
  oldLines : List String
  newLines : List String
  changes : List String
  lineNumber : Nat
  deriving Repr, DecidableEq

/-- One iteration of the `for line in lines` loop of
`parse_diff_changes_detailed`. -/
def pddStep (st : DiffParseState) (line : String) : DiffParseState :=
  if pyStartsWith line "@@" then
    match hunkSearch line with
    | some r =>
      { st with lineNumber := r.2, changes := st.changes ++ ["   HUNK: " ++ line] }
    | none => st
  else if pyStartsWith line "-" && !pyStartsWith line "---" then
    { st with oldLines := st.oldLines ++ [strTail line],
              changes := st.changes ++
                ["❌ REMOVED (Line ~" ++ toString st.lineNumber ++ "): " ++ strTail line] }
  else if pyStartsWith line "+" && !pyStartsWith line "+++" then
    { st with newLines := st.newLines ++ [strTail line],
              changes := st.changes ++
                ["✅ ADDED (Line " ++ toString st.lineNumber ++ "): " ++ strTail line],
              lineNumber := st.lineNumber + 1 }
  else if pyStartsWith line " " then
    { st with oldLines := st.oldLines ++ [strTail line],
              newLines := st.newLines ++ [strTail line],
              changes := st.changes ++
                ["   CONTEXT (Line " ++ toString st.lineNumber ++ "): " ++ strTail line],
              lineNumber := st.lineNumber + 1 }
  else st

/-- Embedding of `PRReviewService.parse_diff_changes_detailed`: returns
`(old_code, new_code, changes_summary)`. -/
def parse_diff_changes_detailed (diff : String) : String × String × String :=
  if diff = "" then ("", "", "No diff available")
  else
    let st := (pySplitLines diff).foldl pddStep ⟨[], [], [], 1⟩
    ( if st.oldLines = [] then "No old code found" else joinNl st.oldLines,
      if st.newLines = [] then "No new code found" else joinNl st.newLines,
      if st.changes = [] then "No meaningful changes found in diff"
      else joinNl st.changes )

/-- A line the parser reacts to: a hunk header that the regex accepts, a
removal, an addition, or a context line. -/
def recognizableDiffLine (line : String) : Bool :=
  (pyStartsWith line "@@" && (hunkSearch line).isSome) ||
  (pyStartsWith line "-" && !pyStartsWith line "---") ||
  (pyStartsWith line "+" && !pyStartsWith line "+++") ||
  pyStartsWith line " "

example : parse_diff_changes_detailed "@@ -1,1 +1,2 @@\n line1\n+line2" =
    ("line1", "line1\nline2",
     "   HUNK: @@ -1,1 +1,2 @@\n   CONTEXT (Line 1): line1\n✅ ADDED (Line 2): line2") := by
  decide

example : parse_diff_changes_detailed "" = ("", "", "No diff available") := by
  decide

example : parse_diff_changes_detailed "hello" =
    ("No old code found", "No new code found", "No meaningful changes found in diff") := by
  decide

/-! ## `PRReviewService.extract_file_diff` (services.py lines 468-485) -/

/-- The `for line in lines` loop of `extract_file_diff`: the first branch
(re)enters capture mode on any line having one of the two target header
strings as a prefix (without appending the line); the second branch stops at
a `diff --git` line reached while capturing; the third appends the line while
capturing. -/
def extractLoop (tA tB : String) (in_file : Bool) : List String → List String
  | [] => []
  | l :: ls =>
    if pyStartsWith l tA || pyStartsWith l tB then extractLoop tA tB true ls
    else if pyStartsWith l "diff --git" && in_file then []
    else if in_file then l :: extractLoop tA tB in_file ls
    else extractLoop tA tB in_file ls

/-- Embedding of `PRReviewService.extract_file_diff`. -/
def extract_file_diff (full_diff filename : String) : String :=
  if full_diff = "" then "No diff available for " ++ filename
  else
    let fd := extractLoop ("diff --git a/" ++ filename) ("diff --git b/" ++ filename)
      false (pySplitLines full_diff)
    if fd = [] then "No diff content found for " ++ filename else joinNl fd

/-- Capture mode of the golden description: skip further lines that carry a
target-header prefix, stop at any other `diff --git` line, keep the rest. -/
def captureFrom (tA tB : String) : List String → List String
  | [] => []
  | l :: ls =>
    if pyStartsWith l tA || pyStartsWith l tB then captureFrom tA tB ls
    else if pyStartsWith l "diff --git" then []
    else l :: captureFrom tA tB ls

/-- Golden description of the capture region: drop everything before the first
line having a target-header prefix, then capture per `captureFrom`. -/
def captureFile (tA tB : String) (lines : List String) : List String :=
  match lines.dropWhile (fun l => !(pyStartsWith l tA || pyStartsWith l tB)) with
  | [] => []
  | _ :: rest => captureFrom tA tB rest

/-- The amended specification of `extract_file_diff`, written from its words:
capture starts at the first line that has `diff --git a/<path>` or
`diff --git b/<path>` as a *prefix* (so a header of a file whose path merely
extends the target also starts capture), skips any further line carrying such
a prefix, and stops at the next `diff --git` line that does not carry one;
an empty diff gives the "No diff available" sentinel and an empty capture
gives the "No diff content found" sentinel. -/
def extract_file_diff_spec (full_diff filename : String) : String :=
  if full_diff = "" then "No diff available for " ++ filename
  else
    let fd := captureFile ("diff --git a/" ++ filename) ("diff --git b/" ++ filename)
      (pySplitLines full_diff)
    if fd = [] then "No diff content found for " ++ filename else joinNl fd

/-! ## `PRReviewService.detect_language` (services.py lines 422-438) -/

/-- The extension table of `detect_language`, in the source's insertion
order. -/
def language_map : List (String × String) :=
  [(".py", "Python"), (".js", "JavaScript"), (".ts", "TypeScript"),
   (".java", "Java"), (".cpp", "C++"), (".c", "C"), (".cs", "C#"),
   (".go", "Go"), (".rs", "Rust"), (".php", "PHP"), (".rb", "Ruby"),
   (".html", "HTML"), (".css", "CSS"), (".sql", "SQL")]

/-- Python's `s.endswith(suffix)`. -/
def pyEndsWith (s suffix : String) : Bool :=
  startsWithAux suffix.data.reverse s.data.reverse

/-- Python's `s.lower()` (ASCII; extensions and the paths of interest are
ASCII). -/
def pyToLower (s : String) : String :=
  String.mk (s.data.map Char.toLower)

/-- Embedding of `PRReviewService.detect_language`. -/
def detect_language (file_path : String) : String :=
  if file_path = "" then "Unknown"
  else
    let fp := pyToLower file_path
    match language_map.find? (fun p => pyEndsWith fp p.fst) with
    | some p => p.snd
    | none => "Unknown"

example : detect_language "app/models.PY" = "Python" := by decide
example : detect_language "x.js" = "JavaScript" := by decide
example : detect_language "" = "Unknown" := by decide
example : detect_language "Makefile" = "Unknown" := by decide

/-! ## `GitHubService._make_request` (services.py lines 243-264) -/

/-- Outcome of one HTTP exchange attempt (the `requests.get` call):
either a completed exchange with a status code, or a transport-level
failure (connection error / timeout), which `requests` raises as a
`RequestException`. -/
inductive TransportResult where
  | response (status : Nat)
  | transportFailure (msg : String)
  deriving Repr, DecidableEq

/-- The exception a loop iteration of `_make_request` can raise: an
`HTTPError` from `raise_for_status` or the transport failure itself.  Both
are `requests.exceptions.RequestException` subclasses, hence both are caught
by the `except` clause. -/
inductive RequestError where
  | httpError (status : Nat)
  | transportError (msg : String)
  deriving Repr, DecidableEq

/-- Model of `response.raise_for_status()`: raises `HTTPError` exactly for 4xx/5xx
status codes, otherwise returns the response (identified by its status). -/
def raise_for_status (status : Nat) : Except RequestError Nat :=
  if 400 ≤ status ∧ status < 600 then .error (.httpError status) else .ok status

/-- One loop iteration body of `_make_request` at attempt index `attempt`:
perform the exchange and run `raise_for_status`. -/
def requestAttempt (attempts : Nat → TransportResult) (attempt : Nat) :
    Except RequestError Nat :=
  match attempts attempt with
  | .response s => raise_for_status s
  | .transportFailure m => .error (.transportError m)

/-- The `for attempt in range(self.max_retries + 1)` loop of
`_make_request`: a raised `RequestException` is swallowed (`continue`) while
attempts remain (`attempt < max_retries`, i.e. `remaining > 0`), and
re-raised on the last attempt.  `remaining = max_retries - attempt`. -/
def make_request_go (attempts : Nat → TransportResult) (attempt remaining : Nat) :
    Except RequestError Nat :=
  match requestAttempt attempts attempt with
  | .ok r => .ok r
  | .error e =>
    match remaining with
    | 0 => .error e
    | rem + 1 => make_request_go attempts (attempt + 1) rem

/-- Embedding of `GitHubService._make_request`, abstracted over the per-attempt transport
outcome. -/
def make_request (attempts : Nat → TransportResult) (max_retries : Nat) :
    Except RequestError Nat :=
  make_request_go attempts 0 max_retries

/-! ## GitHub PR URL parsing (views.py lines 342-359, serializers.py 40-47) -/

/-- Strip an exact literal character sequence from the front. -/
def stripLit : List Char → List Char → Option (List Char)
  | [], cs => some cs
  | _ :: _, [] => none
  | p :: ps, c :: cs => if p == c then stripLit ps cs else none

/-- Match `([^/]+)/`: a nonempty run of non-slash characters followed by a
slash, returning the run and the remainder after the slash. -/
def segSplit (cs : List Char) : Option (List Char × List Char) :=
  let seg := cs.takeWhile (fun c => c != '/')
  if seg.isEmpty then none
  else
    match cs.dropWhile (fun c => c != '/') with
    | '/' :: rest => some (seg, rest)
    | _ => none

/-- The match `re.match(r"https://github\.com/([^/]+)/([^/]+)/pull/(\d+)", url)` as
used both by `QuickReviewSerializer.validate_github_url` and by
`QuickReviewAPIView.post`: anchored at the start of the string only (Python's
`re.match` does not anchor the end), returning the
`(owner, repo, int(number))` triple on success. -/
def parse_github_pr_url (s : String) : Option (String × String × Nat) :=
  match stripLit "https://github.com/".data s.data with
  | none => none
  | some r1 =>
    match segSplit r1 with
    | none => none
    | some (o, r2) =>
      match segSplit r2 with
      | none => none
      | some (rp, r3) =>
        match stripLit "pull/".data r3 with
        | none => none
        | some r4 =>
          let ds := r4.takeWhile Char.isDigit
          if ds.isEmpty then none
          else some (String.mk o, String.mk rp, digitsToNat ds)

example : parse_github_pr_url "https://github.com/acme/widgets/pull/42" =
    some ("acme", "widgets", 42) := by decide
example : parse_github_pr_url "https://gitlab.com/acme/widgets/pull/42" = none := by decide
example : parse_github_pr_url "https://github.com/acme/widgets/issues/42" = none := by decide
example : parse_github_pr_url "https://github.com/acme/widgets/pull/42/files" =
    some ("acme", "widgets", 42) := by decide

/-! ## `PromptManager` (services.py lines 73-216)

The repository ships no prompts YAML file at the configured default path
(`api/prompts.yml`), so `PromptManager.load_prompts` hits `FileNotFoundError`
and the in-memory prompt table is exactly `get_default_prompts()`. -/

/-- Key structure of `PromptManager.get_default_prompts()`: the table has the
two types `file_analysis` and `code_improvements`, each with a
`system_prompt` and a `user_prompt` part.  The stored values are long prompt
texts; no claim depends on their content, so they are represented by
`defaultPromptText`. -/
def default_prompt_keys : List (String × List String) :=
  [("file_analysis", ["system_prompt", "user_prompt"]),
   ("code_improvements", ["system_prompt", "user_prompt"])]

/-- Stand-in for the literal template text stored under an existing key of
the default prompt table (see `default_prompt_keys`). -/
def defaultPromptText (ptype ppart : String) : String :=
  "<default " ++ ptype ++ "." ++ ppart ++ " text>"

/-- Embedding of `PromptManager.get_prompt` under the repository's own configuration:
`self.prompts[ptype][ppart]` on the default table; on `KeyError` the chained
`.get(...).get(..., "Default prompt not available")` fallback. -/
def get_prompt (ptype ppart : String) : String :=
  match default_prompt_keys.find? (fun p => p.fst == ptype) with
  | some p =>
    if p.snd.contains ppart then defaultPromptText ptype ppart
    else "Default prompt not available"
  | none => "Default prompt not available"

example : get_prompt "fallback_improvement" "template" = "Default prompt not available" := by
  decide

/-! Python's `str.format` with keyword arguments, as called in
`generate_fallback_improvements`: replacement fields `{name}` are substituted
from the argument list, `{{`/`}}` are brace escapes, and an unknown field
name or stray brace raises (modelled as `none`, which the surrounding bare
`except` turns into the ultimate fallback text). -/

/-- Scan of `pyFormat` over the template characters.  The first argument is
the mode: `none` = literal text, `some acc` = inside a replacement field with
`acc` holding the accumulated name characters in reverse. -/
def pyFormatGo (vars : List (String × String)) :
    Option (List Char) → List Char → Option (List Char)
  | none, [] => some []
  | some _, [] => none
  | none, '\x7b' :: '\x7b' :: cs => (pyFormatGo vars none cs).map (fun r => '\x7b' :: r)
  | none, '\x7d' :: '\x7d' :: cs => (pyFormatGo vars none cs).map (fun r => '\x7d' :: r)
  | none, '\x7b' :: cs => pyFormatGo vars (some []) cs
  | none, '\x7d' :: _ => none
  | none, c :: cs => (pyFormatGo vars none cs).map (fun r => c :: r)
  | some acc, '\x7d' :: cs =>
    match vars.find? (fun p => p.fst == String.mk acc.reverse) with
    | some p => (pyFormatGo vars none cs).map (fun r => p.snd.data ++ r)
    | none => none
  | some acc, c :: cs => pyFormatGo vars (some (c :: acc)) cs

/-- Model of `template.format(language=..., original_code=..., improved_code=...)`. -/
def pyFormat (template : String) (vars : List (String × String)) : Option String :=
  (pyFormatGo vars none template.data).map String.mk

/-- Python's truthiness of `line.strip()`: the line has some non-whitespace
character. -/
def pyStripTruthy (s : String) : Bool :=
  s.data.any (fun c => !isPySpace c)

/-- The bare-`except` branch of
`PRReviewService.generate_fallback_improvements` ("ultimate fallback"):
builds the improvements text line by line from the parsed added/removed
lines. -/
def ultimateFallbackImprovements (language : String)
    (added_lines removed_lines : List String) : String :=
  let part1 : List String :=
    ["## 🎯 ORIGINAL CODE vs IMPROVED CODE",
     "\n### Issue 1: Code Quality Enhancement",
     "**Severity**: MEDIUM",
     "**Category**: Quality",
     "",
     "**Original Code:**",
     "```" ++ language]
  let part2 : List String :=
    if removed_lines ≠ [] then removed_lines.take 5
    else if added_lines ≠ [] then ["# Previous version"]
    else []
  let part3 : List String := ["```", "", "**Improved Code:**", "```" ++ language]
  let part4 : List String := (added_lines.take 5).filter pyStripTruthy
  let part5 : List String :=
    ["```", "", "**Why This Is Better:**",
     "- Enhanced code structure and readability",
     "- Improved maintainability",
     "- Better adherence to best practices"]
  joinNl (part1 ++ part2 ++ part3 ++ part4 ++ part5)

/-- Embedding of `PRReviewService.generate_fallback_improvements` (services.py lines
522-570): formats the `fallback_improvement.template` prompt — under the
repository's default prompt table this lookup yields the placeholder
"Default prompt not available" — and on any exception in that path falls
back to `ultimateFallbackImprovements`. -/
def generate_fallback_improvements (file_path language : String)
    (added_lines removed_lines : List String) : String :=
  let fallback_template := get_prompt "fallback_improvement" "template"
  let original_code := if removed_lines ≠ [] then joinNl (removed_lines.take 5)
                       else "# Previous version"
  let improved_code := if added_lines ≠ [] then joinNl (added_lines.take 5)
                       else "# Improved version"
  match pyFormat fallback_template
      [("language", language), ("original_code", original_code),
       ("improved_code", improved_code)] with
  | some s => s
  | none => ultimateFallbackImprovements language added_lines removed_lines

/-! ## `PRReviewService.generate_code_improvements` (services.py 487-520) -/

/-- The added/removed/context line collection loop at the top of
`generate_code_improvements` (note: it tests `+` before `-` before space). -/
def gciParse (diff : String) : List String × List String × List String :=
  (pySplitLines diff).foldl
    (fun acc line =>
      if pyStartsWith line "+" && !pyStartsWith line "+++" then
        (acc.1 ++ [strTail line], acc.2.1, acc.2.2)
      else if pyStartsWith line "-" && !pyStartsWith line "---" then
        (acc.1, acc.2.1 ++ [strTail line], acc.2.2)
      else if pyStartsWith line " " then
        (acc.1, acc.2.1, acc.2.2 ++ [strTail line])
      else acc)
    ([], [], [])

/-- Embedding of `PRReviewService.generate_code_improvements`, with the completion
collaborator abstracted as `llm` (`some content` = the chain call returned
`content`; `none` = it raised, landing in the `except` branch). -/
def generate_code_improvements (llm : Option String)
    (file_path diff language : String) : String :=
  let parsed := gciParse diff
  match llm with
  | some content => content
  | none => generate_fallback_improvements file_path language parsed.1 parsed.2.1

/-! ## `PRReviewService.analyze_file_changes` (services.py 572-632) -/

/-- The slice of a GitHub changed-file object that `analyze_pr` and
`analyze_file_changes` read: `filename`, `status`, `additions`,
`deletions`. -/
structure FileInfo where
  filename : String
  status : String
  additions : Nat
  deletions : Nat
  deriving Repr, DecidableEq

/-- One per-file review record as built by `analyze_file_changes` (the
`changes` sub-dict is flattened into the two count fields). -/
structure FileReviewRecord where
  file : String
  language : String
  analysis : String
  old_code : String
  new_code : String
  code_changes : String
  improvements : String
  additions : Nat
  deletions : Nat
  deriving Repr, DecidableEq

/-- Embedding of `PRReviewService.analyze_file_changes`, with the two completion calls
abstracted: `analysisLLM` is the `file_analysis` chain call (`none` = it
raised with message `errStr`), `improvementsLLM` the `code_improvements`
chain call inside `generate_code_improvements`.  In the exception branch
`old_code`/`new_code`/`code_changes` are already bound (they are computed
before the `try`), and the fallback improvements are generated from empty
line lists, exactly as in the source. -/
def analyze_file_changes (analysisLLM improvementsLLM : Option String)
    (errStr : String) (file_info : FileInfo) (full_diff : String) :
    FileReviewRecord :=
  let file_path := file_info.filename
  let file_diff := extract_file_diff full_diff file_path
  let parsed := parse_diff_changes_detailed file_diff
  let language := detect_language file_path
  match analysisLLM with
  | some analysisContent =>
    { file := file_path, language := language, analysis := analysisContent,
      old_code := parsed.1, new_code := parsed.2.1, code_changes := parsed.2.2,
      improvements := generate_code_improvements improvementsLLM file_path file_diff language,
      additions := file_info.additions, deletions := file_info.deletions }
  | none =>
    { file := file_path, language := language,
      analysis := "Basic analysis for " ++ file_path ++ ": " ++ errStr,
      old_code := parsed.1, new_code := parsed.2.1, code_changes := parsed.2.2,
      improvements := generate_fallback_improvements file_path language [] [],
      additions := file_info.additions, deletions := file_info.deletions }

/-! ## `PRReviewService.analyze_pr` file loop (services.py 648-672) -/

/-- The `for file_info in files[:10]` body: a file whose status is not
`removed` contributes exactly one record (`analyze_file_changes` on success,
the error-placeholder record in the per-file `except` branch — either way one
record, which `review` abstracts); a removed file contributes none. -/
def analyzePrLoop (review : FileInfo → FileReviewRecord) :
    List FileInfo → List FileReviewRecord
  | [] => []
  | f :: fs =>
    if f.status != "removed" then review f :: analyzePrLoop review fs
    else analyzePrLoop review fs

/-- The file-review list produced by `analyze_pr`: the loop above over
`files[:10]`. -/
def analyze_pr_file_reviews (review : FileInfo → FileReviewRecord)
    (files : List FileInfo) : List FileReviewRecord :=
  analyzePrLoop review (files.take 10)

/-- The claim's description of the same selection, written from the spec's
words: first exclude every removed file, then cap at the first 10. -/
def spec_selected_files (files : List FileInfo) : List FileInfo :=
  (files.filter (fun f => f.status != "removed")).take 10

/-! ## `PRReviewAPIView.post` (views.py 203-334) and the models
(models.py 6-41) -/

/-- The statuses of `ReviewRequest.STATUS_CHOICES`. -/
inductive RStatus where
  | pending
  | processing
  | completed
  | failed
  deriving Repr, DecidableEq

/-- The column names of the `ReviewRequest` model (models.py lines 6-29):
Django's `save()` persists exactly these. -/
def reviewRequestFields : List String :=
  ["id", "owner", "repo", "pr_number", "status", "task_id", "created_at",
   "updated_at", "user"]

/-- The payload of a successful `analyze_pr` run, as persisted into
`ReviewResult` (opaque strings; `file_reviews` keeps its structure). -/
structure ReviewOutcome where
  pr_details : String
  overall_review : String
  file_reviews : List FileReviewRecord
  summary : String
  deriving Repr, DecidableEq

/-- Database state for one review identity `(owner, repo, pr_number)`:
the `ReviewRequest` row (if any, represented by its status — the only
persisted column the claims consult) and its one-to-one `ReviewResult` row
(if any). -/
structure ReviewDB where
  request : Option RStatus
  result : Option ReviewOutcome
  deriving Repr, DecidableEq

/-- Persistence/collaboration events emitted by `post`, in program order. -/
inductive PostEvent where
  | createRequest (s : RStatus)
  | saveStatus (s : RStatus)
  | invokePipeline
  | upsertResult
  deriving Repr, DecidableEq

/-- The HTTP response of `post` (shape only). -/
inductive PostResponse where
  | alreadyCompleted (r : ReviewOutcome)
  | asyncStarted
  | completedResponse (r : ReviewOutcome)
  | errorResponse (msg : String)
  deriving Repr, DecidableEq

/-- Continuation of `post` after the `get_or_create` + completed-cache check:
the async branch persists `processing` and returns; the sync branch persists
`processing`, invokes the pipeline, then either upserts the result and
persists `completed`, or persists `failed`.  In the failure branch the source
also assigns `review_request.error_message = str(review_error)` — an
attribute that is not among `reviewRequestFields`, so `save()` persists only
the status change and the message is not stored. -/
def postAfterLookup (db : ReviewDB) (evs : List PostEvent) (asyncReview : Bool)
    (pipeline : Except String ReviewOutcome) :
    ReviewDB × List PostEvent × PostResponse :=
  if asyncReview then
    ({ db with request := some .processing },
     evs ++ [.saveStatus .processing], .asyncStarted)
  else
    let evs1 := evs ++ [.saveStatus .processing, .invokePipeline]
    match pipeline with
    | .ok r =>
      ({ request := some .completed, result := some r },
       evs1 ++ [.upsertResult, .saveStatus .completed],
       .completedResponse r)
    | .error m =>
      ({ db with request := some .failed },
       evs1 ++ [.saveStatus .failed],
       .errorResponse ("Review failed: " ++ m))

/-- Embedding of `PRReviewAPIView.post` for a valid `(owner, repo, pr_number)` input,
modelled over the database state of that identity.  `get_or_create` creates
the row with default status `pending` when absent; when the row exists,
is `completed`, and a `ReviewResult` row exists (`hasattr(review_request,
'result')`), the stored result is returned immediately; otherwise the run
proceeds. -/
def pr_review_post (db : ReviewDB) (asyncReview : Bool)
    (pipeline : Except String ReviewOutcome) :
    ReviewDB × List PostEvent × PostResponse :=
  match db.request with
  | none =>
    postAfterLookup { db with request := some .pending }
      [.createRequest .pending] asyncReview pipeline
  | some s =>
    if s = .completed then
      match db.result with
      | some r => (db, [], .alreadyCompleted r)
      | none => postAfterLookup db [] asyncReview pipeline
    else postAfterLookup db [] asyncReview pipeline

example : pyFormat "Default prompt not available" [("language", "L")] =
    some "Default prompt not available" := rfl

example : generate_fallback_improvements "f.py" "Python" ["a1"] ["r1"] =
    "Default prompt not available" := by decide

example : make_request (fun i => if i = 0 then .response 500 else .response 200) 3 =
    .ok 200 := rfl

/-! ## Helper lemmas -/

theorem startsWithAux_head (pd sd : List Char) (c : Char)
    (hp : pd.head? = some c) (h : startsWithAux pd sd = true) :
    sd.head? = some c := by
  cases pd with
  | nil => simp at hp
  | cons pc pt =>
    cases sd with
    | nil => simp [startsWithAux] at h
    | cons sc st2 =>
      simp only [List.head?] at hp ⊢
      simp only [startsWithAux, Bool.and_eq_true, beq_iff_eq] at h
      rw [← h.1]
      exact hp

/-- If `s` starts with a prefix whose first character is `c`, the first
character of `s` is `c`. -/
theorem pyStartsWith_head (s p : String) (c : Char)
    (hp : p.data.head? = some c) (h : pyStartsWith s p = true) :
    s.data.head? = some c :=
  startsWithAux_head p.data s.data c hp h

/-- A string whose first character differs from the first character of `p`
does not start with `p`. -/
theorem pyStartsWith_false_of_head_ne (s p : String) (a b : Char)
    (hs : s.data.head? = some a) (hp : p.data.head? = some b) (hab : a ≠ b) :
    pyStartsWith s p = false := by
  unfold pyStartsWith
  cases hpd : p.data with
  | nil => rw [hpd] at hp; simp at hp
  | cons pc pt =>
    cases hsd : s.data with
    | nil => rw [hsd] at hs; simp at hs
    | cons sc st2 =>
      rw [hpd] at hp; rw [hsd] at hs
      simp only [List.head?, Option.some.injEq] at hp hs
      subst hp; subst hs
      simp only [startsWithAux, Bool.and_eq_false_iff]
      left
      exact beq_eq_false_iff_ne.mpr (fun hh => hab (hh.symm))

/-- A line the parser does not react to leaves the state unchanged. -/
theorem pddStep_other (st : DiffParseState) (line : String)
    (h : recognizableDiffLine line = false) : pddStep st line = st := by
  unfold recognizableDiffLine at h
  unfold pddStep
  cases hat : pyStartsWith line "@@" with
  | true =>
    rw [hat] at h
    simp only [Bool.true_and, Bool.or_eq_false_iff] at h
    cases hhs : hunkSearch line with
    | none => simp [hat, hhs]
    | some v => rw [hhs] at h; simp at h
  | false =>
    rw [hat] at h
    simp only [Bool.false_and, Bool.false_or, Bool.or_eq_false_iff] at h
    obtain ⟨⟨h2, h3⟩, h4⟩ := h
    simp [hat, h2, h3, h4]

/-- Unrecognizable lines leave the fold state unchanged. -/
theorem foldl_pddStep_unrecognized (lines : List String) (st : DiffParseState)
    (h : ∀ l ∈ lines, recognizableDiffLine l = false) :
    lines.foldl pddStep st = st := by
  induction lines generalizing st with
  | nil => rfl
  | cons a t ih =>
    rw [List.foldl_cons, pddStep_other st a (h a (by simp))]
    exact ih st (fun l hl => h l (by simp [hl]))

/-! ## C1 -/

/-- C1: the diff parser classifies lines as the claim states: a line whose
hunk-header regex search succeeds with captures `(oldStart, newStart)` resets
the new-file line counter to `newStart` and appends a hunk marker (and only
that); a `-` line (not `---`) is appended to the old text only, annotated
REMOVED at the current counter, counter unchanged; a `+` line (not `+++`) is
appended to the new text only, annotated ADDED at the current counter,
counter advanced; a space line is appended to both, annotated CONTEXT,
counter advanced; any other line changes nothing (no abort — the function is
total); and the concrete diff `@@ -1,1 +1,2 @@ / line1 / +line2` yields
new-text `line1\nline2` and old-text `line1`. -/
theorem c1_diff_line_classification :
    (∀ (st : DiffParseState) (line : String) (o n : Nat),
      pyStartsWith line "@@" = true → hunkSearch line = some (o, n) →
      pddStep st line =
        { st with lineNumber := n, changes := st.changes ++ ["   HUNK: " ++ line] })
  ∧ (∀ (st : DiffParseState) (line : String),
      pyStartsWith line "-" = true → pyStartsWith line "---" = false →
      pddStep st line =
        { st with oldLines := st.oldLines ++ [strTail line],
                  changes := st.changes ++
                    ["❌ REMOVED (Line ~" ++ toString st.lineNumber ++ "): " ++ strTail line] })
  ∧ (∀ (st : DiffParseState) (line : String),
      pyStartsWith line "+" = true → pyStartsWith line "+++" = false →
      pddStep st line =
        { st with newLines := st.newLines ++ [strTail line],
                  changes := st.changes ++
                    ["✅ ADDED (Line " ++ toString st.lineNumber ++ "): " ++ strTail line],
                  lineNumber := st.lineNumber + 1 })
  ∧ (∀ (st : DiffParseState) (line : String),
      pyStartsWith line " " = true →
      pddStep st line =
        { st with oldLines := st.oldLines ++ [strTail line],
                  newLines := st.newLines ++ [strTail line],
                  changes := st.changes ++
                    ["   CONTEXT (Line " ++ toString st.lineNumber ++ "): " ++ strTail line],
                  lineNumber := st.lineNumber + 1 })
  ∧ (∀ (st : DiffParseState) (line : String),
      recognizableDiffLine line = false → pddStep st line = st)
  ∧ (parse_diff_changes_detailed "@@ -1,1 +1,2 @@\n line1\n+line2").2.1 = "line1\nline2"
  ∧ (parse_diff_changes_detailed "@@ -1,1 +1,2 @@\n line1\n+line2").1 = "line1" := by
  refine ⟨?_, ?_, ?_, ?_, pddStep_other, by decide, by decide⟩
  · intro st line o n hat hhs
    unfold pddStep
    simp [hat, hhs]
  · intro st line h1 h2
    have hh : line.data.head? = some '-' := pyStartsWith_head line "-" '-' rfl h1
    have hat : pyStartsWith line "@@" = false :=
      pyStartsWith_false_of_head_ne line "@@" '-' '@' hh rfl (by decide)
    unfold pddStep
    simp [hat, h1, h2]
  · intro st line h1 h2
    have hh : line.data.head? = some '+' := pyStartsWith_head line "+" '+' rfl h1
    have hat : pyStartsWith line "@@" = false :=
      pyStartsWith_false_of_head_ne line "@@" '+' '@' hh rfl (by decide)
    have hdash : pyStartsWith line "-" = false :=
      pyStartsWith_false_of_head_ne line "-" '+' '-' hh rfl (by decide)
    unfold pddStep
    simp [hat, hdash, h1, h2]
  · intro st line h1
    have hh : line.data.head? = some ' ' := pyStartsWith_head line " " ' ' rfl h1
    have hat : pyStartsWith line "@@" = false :=
      pyStartsWith_false_of_head_ne line "@@" ' ' '@' hh rfl (by decide)
    have hdash : pyStartsWith line "-" = false :=
      pyStartsWith_false_of_head_ne line "-" ' ' '-' hh rfl (by decide)
    have hplus : pyStartsWith line "+" = false :=
      pyStartsWith_false_of_head_ne line "+" ' ' '+' hh rfl (by decide)
    unfold pddStep
    simp [hat, hdash, hplus, h1]

/-- Closed instance of C1 (REMOVED case at a concrete state and line, plus a
hunk-header case). -/
theorem c1_witness :
    pddStep ⟨[], [], [], 5⟩ "-gone" = ⟨["gone"], [], ["❌ REMOVED (Line ~5): gone"], 5⟩ ∧
    pddStep ⟨[], [], [], 1⟩ "@@ -3,2 +7,4 @@" = ⟨[], [], ["   HUNK: @@ -3,2 +7,4 @@"], 7⟩ := by
  constructor
  · rw [c1_diff_line_classification.2.1 ⟨[], [], [], 5⟩ "-gone" (by decide) (by decide)]
    decide
  · rw [c1_diff_line_classification.1 ⟨[], [], [], 1⟩ "@@ -3,2 +7,4 @@" 3 7 (by decide) (by decide)]
    decide

/-! ## C8 -/

/-- C8 (counterexample): on the empty diff the parser returns the early
`("", "", "No diff available")` triple — the old-code and new-code outputs
are empty strings, not the claimed sentinels. -/
theorem c8_counterexample :
    parse_diff_changes_detailed "" = ("", "", "No diff available") ∧
    (parse_diff_changes_detailed "").1 ≠ "No old code found" ∧
    (parse_diff_changes_detailed "").2.1 ≠ "No new code found" := by
  decide

/-- C8 (amended): the empty string short-circuits to
`("", "", "No diff available")`; a non-empty diff none of whose lines is
recognizable (no regex-matching hunk header, no `-`/`+`/space line) yields
the sentinels `No old code found` / `No new code found` /
`No meaningful changes found in diff`. -/
theorem c8_degenerate_inputs_amended :
    parse_diff_changes_detailed "" = ("", "", "No diff available")
  ∧ (∀ diff : String, diff ≠ "" →
      (∀ l ∈ pySplitLines diff, recognizableDiffLine l = false) →
      parse_diff_changes_detailed diff =
        ("No old code found", "No new code found",
         "No meaningful changes found in diff")) := by
  refine ⟨by decide, ?_⟩
  intro diff hne h
  unfold parse_diff_changes_detailed
  rw [if_neg hne]
  simp only [foldl_pddStep_unrecognized (pySplitLines diff) ⟨[], [], [], 1⟩ h]
  simp

/-- Closed instance of C8's amended statement at the unrecognizable
non-empty input `"hello"`. -/
theorem c8_witness :
    parse_diff_changes_detailed "hello" =
      ("No old code found", "No new code found",
       "No meaningful changes found in diff") :=
  c8_degenerate_inputs_amended.2 "hello" (by decide) (by decide)

/-! ## C7 -/

/-- In capture mode the code loop agrees with the golden capture
description. -/
theorem extractLoop_true_eq (tA tB : String) (ls : List String) :
    extractLoop tA tB true ls = captureFrom tA tB ls := by
  induction ls with
  | nil => rfl
  | cons l t ih =>
    unfold extractLoop captureFrom
    cases h1 : (pyStartsWith l tA || pyStartsWith l tB) with
    | true => simp [h1, ih]
    | false =>
      cases h2 : pyStartsWith l "diff --git" with
      | true => simp [h1, h2]
      | false => simp [h1, h2, ih]

/-- Outside capture mode the code loop agrees with the golden description:
it drops lines until the first target-header line and then captures. -/
theorem extractLoop_false_eq (tA tB : String) (ls : List String) :
    extractLoop tA tB false ls = captureFile tA tB ls := by
  induction ls with
  | nil => rfl
  | cons l t ih =>
    unfold extractLoop captureFile
    cases h1 : (pyStartsWith l tA || pyStartsWith l tB) with
    | true =>
      simp only [h1, if_true, List.dropWhile]
      rw [extractLoop_true_eq]
      simp
    | false =>
      simp only [h1, Bool.false_eq_true, if_false, Bool.and_eq_true, List.dropWhile]
      rw [ih]
      unfold captureFile
      cases h2 : pyStartsWith l "diff --git" with
      | true => simp [h1, h2]
      | false => simp [h1, h2]

/-- C7 (counterexample): in this two-file diff, the header of `a.txt.orig`
begins with `diff --git a/a.txt`, so extracting the sub-diff for `a.txt`
starts capturing at the `a.txt.orig` header, does not stop at the real
`a.txt` header (it also carries the target prefix), and returns the line
`+orig only`, which belongs to the different file `a.txt.orig` — refuting
the isolation part of the claim at this concrete input. -/
theorem c7_counterexample :
    extract_file_diff
        "diff --git a/a.txt.orig b/a.txt.orig\n+orig only\ndiff --git a/a.txt b/a.txt\n+target only"
        "a.txt"
      = "+orig only\n+target only" ∧
    "+orig only" ∈ pySplitLines
      (extract_file_diff
        "diff --git a/a.txt.orig b/a.txt.orig\n+orig only\ndiff --git a/a.txt b/a.txt\n+target only"
        "a.txt") := by
  decide

/-- C7 (amended): `extract_file_diff` behaves exactly as
`extract_file_diff_spec` describes — capture begins at the first line having
`diff --git a/<path>` or `diff --git b/<path>` as a *prefix* (so headers of
files whose paths extend the target also start or continue capture), skips
any further prefix-matching header line, stops at the next `diff --git` line
without such a prefix; an empty diff yields the `No diff available` sentinel
and an empty capture the `No diff content found` sentinel, never an
exception (the function is total).  For a multi-file diff in which no other
file's header carries the target prefix, the extraction is exactly the
target's own block, as the concrete three-file example shows. -/
theorem c7_extract_file_diff_amended :
    (∀ full_diff filename : String,
      extract_file_diff full_diff filename = extract_file_diff_spec full_diff filename)
  ∧ extract_file_diff
      "diff --git a/aa.py b/aa.py\n@@ -1 +1 @@\n-a old\n+a new\ndiff --git a/bb.py b/bb.py\n@@ -2 +2 @@\n-b old\n+b new\ndiff --git a/cc.py b/cc.py\n@@ -3 +3 @@\n-c old\n+c new"
      "bb.py" = "@@ -2 +2 @@\n-b old\n+b new" := by
  refine ⟨?_, by decide⟩
  intro full_diff filename
  unfold extract_file_diff extract_file_diff_spec
  rw [extractLoop_false_eq]

/-! ## C2 -/

/-- The `analyze_pr` per-file loop is filter-then-map over its input. -/
theorem analyzePrLoop_eq (review : FileInfo → FileReviewRecord) (l : List FileInfo) :
    analyzePrLoop review l = (l.filter (fun f => f.status != "removed")).map review := by
  induction l with
  | nil => rfl
  | cons f fs ih =>
    unfold analyzePrLoop
    cases hs : (f.status != "removed") with
    | true => simp [List.filter_cons, hs, ih]
    | false => simp [List.filter_cons, hs, ih]

/-- A concrete per-file review function (the theorem quantifies over all of
them; this one is used for concrete instances). -/
def recordOf (f : FileInfo) : FileReviewRecord :=
  { file := f.filename, language := detect_language f.filename, analysis := "a",
    old_code := "", new_code := "", code_changes := "", improvements := "i",
    additions := f.additions, deletions := f.deletions }

/-- An 11-file changed-file list whose first element is a removed file,
followed by ten non-removed files. -/
def files11 : List FileInfo :=
  ⟨"f0", "removed", 1, 1⟩ ::
    (List.range 10).map (fun n => ⟨"g" ++ toString n, "modified", 1, 1⟩)

/-- A 15-file changed-file list with no removed files. -/
def files15 : List FileInfo :=
  (List.range 15).map (fun n => ⟨"g" ++ toString n, "modified", 1, 1⟩)

/-- C2 (counterexample): on `files11` the code produces 9 records — the
removed file consumed one of the 10 loop slots — while the claim's
filter-then-cap selection has 10 elements, so the produced set differs from
the claim's at this input. -/
theorem c2_counterexample :
    (analyze_pr_file_reviews recordOf files11).length = 9 ∧
    (spec_selected_files files11).length = 10 ∧
    analyze_pr_file_reviews recordOf files11 ≠ (spec_selected_files files11).map recordOf := by
  decide

/-- C2 (amended): the files submitted to per-file review are those among the
*first 10 elements of the API list* whose status is not `removed` (cap first,
then filter — order preserved); a removed file never produces a record; and a
PR whose changed-file list has 15 files, none removed, produces exactly 10
records. -/
theorem c2_file_selection_amended :
    (∀ (review : FileInfo → FileReviewRecord) (files : List FileInfo),
      analyze_pr_file_reviews review files =
        ((files.take 10).filter (fun f => f.status != "removed")).map review)
  ∧ (∀ (files : List FileInfo) (f : FileInfo),
      f ∈ (files.take 10).filter (fun f => f.status != "removed") →
      f.status ≠ "removed")
  ∧ (∀ (review : FileInfo → FileReviewRecord) (files : List FileInfo),
      files.length = 15 → (∀ f ∈ files, f.status ≠ "removed") →
      (analyze_pr_file_reviews review files).length = 10) := by
  refine ⟨?_, ?_, ?_⟩
  · intro review files
    exact analyzePrLoop_eq review (files.take 10)
  · intro files f hf
    have := List.of_mem_filter hf
    simpa using this
  · intro review files hlen hall
    unfold analyze_pr_file_reviews
    rw [analyzePrLoop_eq]
    rw [List.filter_eq_self.mpr]
    · simp [hlen]
    · intro a ha
      have : a ∈ files := List.take_subset 10 files ha
      simpa using hall a this

/-- Closed instance of C2's amended statement: `files15` produces exactly 10
records. -/
theorem c2_witness : (analyze_pr_file_reviews recordOf files15).length = 10 :=
  c2_file_selection_amended.2.2 recordOf files15 (by decide) (by decide)

/-! ## C3 -/

/-- A transport function whose first attempt completes with a non-2xx (500)
response and whose second attempt succeeds with 200. -/
def attemptsHttp500Then200 : Nat → TransportResult :=
  fun i => if i = 0 then .response 500 else .response 200

/-- C3 (counterexample): with the configured default of 3 retries, a call
whose first attempt returns HTTP 500 — a non-2xx response, raised as
`HTTPError` by `raise_for_status` — is retried and returns the second
attempt's 200 response.  The claim says the non-2xx error is propagated
immediately with no retry attempt, i.e. the call should have ended in
`.error (.httpError 500)`. -/
theorem c3_counterexample :
    requestAttempt attemptsHttp500Then200 0 = .error (.httpError 500) ∧
    make_request attemptsHttp500Then200 3 = .ok 200 ∧
    make_request attemptsHttp500Then200 3 ≠ .error (.httpError 500) := by
  refine ⟨rfl, rfl, ?_⟩
  intro h
  cases h

/-- If attempt `k ≤ attempt + remaining` succeeds and all earlier attempts
(from `attempt` on) fail, the loop returns attempt `k`'s response. -/
theorem make_request_go_ok (attempts : Nat → TransportResult)
    (remaining attempt k : Nat) (r : Nat)
    (hlo : attempt ≤ k) (hhi : k ≤ attempt + remaining)
    (hk : requestAttempt attempts k = .ok r)
    (hfail : ∀ i, attempt ≤ i → i < k → ∃ e, requestAttempt attempts i = .error e) :
    make_request_go attempts attempt remaining = .ok r := by
  induction remaining generalizing attempt with
  | zero =>
    have : attempt = k := by omega
    subst this
    unfold make_request_go
    rw [hk]
  | succ rem ih =>
    rcases Nat.eq_or_lt_of_le hlo with heq | hlt
    · subst heq
      unfold make_request_go
      rw [hk]
    · obtain ⟨e, he⟩ := hfail attempt (Nat.le_refl _) hlt
      unfold make_request_go
      rw [he]
      exact ih (attempt + 1) hlt (by omega) (fun i h1 h2 => hfail i (by omega) h2)

/-- If every attempt up to the last fails, the loop re-raises the failure of
the final attempt. -/
theorem make_request_go_err (attempts : Nat → TransportResult)
    (remaining attempt : Nat)
    (hfail : ∀ i, attempt ≤ i → i ≤ attempt + remaining →
      ∃ e, requestAttempt attempts i = .error e) :
    ∃ e, requestAttempt attempts (attempt + remaining) = .error e ∧
         make_request_go attempts attempt remaining = .error e := by
  induction remaining generalizing attempt with
  | zero =>
    obtain ⟨e, he⟩ := hfail attempt (Nat.le_refl _) (by omega)
    refine ⟨e, by simpa using he, ?_⟩
    unfold make_request_go
    rw [he]
  | succ rem ih =>
    obtain ⟨e0, he0⟩ := hfail attempt (Nat.le_refl _) (by omega)
    obtain ⟨e, he, hgo⟩ := ih (attempt + 1) (fun i h1 h2 => hfail i (by omega) (by omega))
    refine ⟨e, by rw [show attempt + (rem + 1) = attempt + 1 + rem by omega]; exact he, ?_⟩
    unfold make_request_go
    rw [he0]
    exact hgo

/-- C3 (amended): every `RequestException` — an `HTTPError` raised by
`raise_for_status` on a non-2xx response just as much as a transport failure
— is retried: the loop returns the response of the first succeeding attempt
up to index `max_retries`, and when every one of the `max_retries + 1`
attempts fails, the failure of the final attempt (HTTP error or transport
error alike) is re-raised to the caller.  Non-2xx responses are therefore
*not* propagated immediately: they are propagated only after the retry
budget is exhausted. -/
theorem c3_retry_amended :
    ∀ (attempts : Nat → TransportResult) (max_retries : Nat),
      (∀ k r, k ≤ max_retries → requestAttempt attempts k = .ok r →
        (∀ i, i < k → ∃ e, requestAttempt attempts i = .error e) →
        make_request attempts max_retries = .ok r)
    ∧ ((∀ i, i ≤ max_retries → ∃ e, requestAttempt attempts i = .error e) →
        ∃ e, requestAttempt attempts max_retries = .error e ∧
             make_request attempts max_retries = .error e) := by
  intro attempts max_retries
  constructor
  · intro k r hk hok hfail
    exact make_request_go_ok attempts max_retries 0 k r (Nat.zero_le _) (by omega) hok
      (fun i _ h2 => hfail i h2)
  · intro hfail
    obtain ⟨e, he, hgo⟩ := make_request_go_err attempts max_retries 0
      (fun i h1 h2 => hfail i (by omega))
    rw [Nat.zero_add] at he
    exact ⟨e, he, hgo⟩

/-- Closed instance of C3's amended statement: first attempt times out, second
attempt (within the default retry budget) succeeds and its response is
returned. -/
theorem c3_witness :
    make_request (fun i => if i = 0 then .transportFailure "timeout" else .response 200) 3 =
      .ok 200 :=
  (c3_retry_amended (fun i => if i = 0 then .transportFailure "timeout" else .response 200) 3).1
    1 200 (by omega) rfl
    (by
      intro i hi
      have : i = 0 := by omega
      subst this
      exact ⟨.transportError "timeout", rfl⟩)

/-! ## C4 -/

/-- Under the repository's default prompt table, the fallback-improvements
builder resolves the missing `fallback_improvement.template` key to the
placeholder string and `str.format` leaves that placeholder unchanged, for
every input. -/
theorem generate_fallback_improvements_eq (file_path language : String)
    (added removed : List String) :
    generate_fallback_improvements file_path language added removed =
      "Default prompt not available" := by
  unfold generate_fallback_improvements
  rfl

/-- Length of `(s ++ t)`, on the list embedding. -/
theorem strLength_append (s t : String) : (s ++ t).length = s.length + t.length := by
  obtain ⟨sd⟩ := s
  obtain ⟨td⟩ := t
  show (String.mk (sd ++ td)).length = (String.mk sd).length + (String.mk td).length
  simp

/-- C4: when a completion call fails, `analyze_file_changes` still returns a
record (the function is total — no exception propagates), whose `analysis`
and `improvements` fields are non-empty and deterministic: on failure of the
file-analysis call the analysis is the `Basic analysis for <file>: <error>`
text and the improvements are the fallback text, and on failure of the
code-improvements call alone the improvements are the fallback text built
from the added/removed lines parsed out of the file's sub-diff; the
reconstruction fields always carry the parsed diff values. -/
theorem c4_completion_failure_fallback :
    ∀ (impLLM : Option String) (errStr : String) (fi : FileInfo) (full_diff : String),
      ((analyze_file_changes none impLLM errStr fi full_diff).analysis =
        "Basic analysis for " ++ fi.filename ++ ": " ++ errStr)
    ∧ ((analyze_file_changes none impLLM errStr fi full_diff).analysis.length > 0)
    ∧ ((analyze_file_changes none impLLM errStr fi full_diff).improvements =
        generate_fallback_improvements fi.filename (detect_language fi.filename) [] [])
    ∧ ((analyze_file_changes none impLLM errStr fi full_diff).improvements.length > 0)
    ∧ (∀ c, (analyze_file_changes (some c) none errStr fi full_diff).improvements =
        generate_fallback_improvements fi.filename (detect_language fi.filename)
          (gciParse (extract_file_diff full_diff fi.filename)).1
          (gciParse (extract_file_diff full_diff fi.filename)).2.1)
    ∧ (∀ c, (analyze_file_changes (some c) none errStr fi full_diff).improvements.length > 0)
    ∧ ((analyze_file_changes none impLLM errStr fi full_diff).old_code =
        (parse_diff_changes_detailed (extract_file_diff full_diff fi.filename)).1)
    ∧ ((analyze_file_changes none impLLM errStr fi full_diff).new_code =
        (parse_diff_changes_detailed (extract_file_diff full_diff fi.filename)).2.1) := by
  intro impLLM errStr fi full_diff
  refine ⟨rfl, ?_, rfl, ?_, fun c => rfl, fun c => ?_, rfl, rfl⟩
  · show ("Basic analysis for " ++ fi.filename ++ ": " ++ errStr).length > 0
    rw [strLength_append, strLength_append, strLength_append]
    have h0 : "Basic analysis for ".length = 19 := by decide
    omega
  · show (generate_fallback_improvements fi.filename (detect_language fi.filename) [] []).length > 0
    rw [generate_fallback_improvements_eq]
    decide
  · show (generate_fallback_improvements fi.filename (detect_language fi.filename)
      (gciParse (extract_file_diff full_diff fi.filename)).1
      (gciParse (extract_file_diff full_diff fi.filename)).2.1).length > 0
    rw [generate_fallback_improvements_eq]
    decide

/-! ## C5, C6, C10 -/

/-- The events emitted by the `get_or_create` lookup phase of `post`: a row
creation (with default status `pending`) when the identity is new, nothing
otherwise. -/
def lookupEvents (db : ReviewDB) : List PostEvent :=
  match db.request with
  | none => [PostEvent.createRequest .pending]
  | some _ => []

/-- An empty database: the identity has never been reviewed. -/
def dbEmpty : ReviewDB := ⟨none, none⟩

/-- A sample pipeline outcome. -/
def outcome1 : ReviewOutcome := ⟨"pd", "ov", [], "sum"⟩

/-- A database holding a completed request with its stored result. -/
def dbCompleted : ReviewDB := ⟨some .completed, some outcome1⟩

/-- C5: (i) on first creation of an identity the request row is created with
status `pending`; (ii) a synchronous non-cache-hit run persists `processing`
(a `saveStatus .processing` event) strictly before `invokePipeline`; (iii) a
successful pipeline outcome ends the run with status `completed` and the
result slot holding exactly that run's outcome (the one-to-one `result` slot
is overwritten — re-runs replace it); (iv) a pipeline exception ends the run
with status `failed`, emits no `upsertResult`, and leaves the stored result
exactly as it was (nothing persisted for the failed run). -/
theorem c5_lifecycle :
    (∀ (db : ReviewDB) (a : Bool) (p : Except String ReviewOutcome),
      db.request = none →
      (pr_review_post db a p).2.1.take 1 = [PostEvent.createRequest .pending])
  ∧ (∀ (db : ReviewDB) (r : ReviewOutcome),
      (db.request ≠ some .completed ∨ db.result = none) →
      pr_review_post db false (.ok r) =
        ({ request := some .completed, result := some r },
         lookupEvents db ++
           [.saveStatus .processing, .invokePipeline, .upsertResult, .saveStatus .completed],
         .completedResponse r))
  ∧ (∀ (db : ReviewDB) (m : String),
      (db.request ≠ some .completed ∨ db.result = none) →
      pr_review_post db false (.error m) =
        ({ request := some .failed, result := db.result },
         lookupEvents db ++
           [.saveStatus .processing, .invokePipeline, .saveStatus .failed],
         .errorResponse ("Review failed: " ++ m))) := by
  refine ⟨?_, ?_, ?_⟩
  · intro db a p hreq
    obtain ⟨req, res⟩ := db
    simp only at hreq
    subst hreq
    unfold pr_review_post postAfterLookup
    cases a with
    | true => simp
    | false => cases p with
      | ok r => simp
      | error m => simp
  · intro db r hnc
    obtain ⟨req, res⟩ := db
    unfold pr_review_post postAfterLookup lookupEvents
    match req with
    | none => simp
    | some .pending => simp
    | some .processing => simp
    | some .failed => simp
    | some .completed =>
      rcases hnc with hnc | hnc
      · simp at hnc
      · simp only at hnc
        subst hnc
        simp
  · intro db m hnc
    obtain ⟨req, res⟩ := db
    unfold pr_review_post postAfterLookup lookupEvents
    match req with
    | none => simp
    | some .pending => simp
    | some .processing => simp
    | some .failed => simp
    | some .completed =>
      rcases hnc with hnc | hnc
      · simp at hnc
      · simp only at hnc
        subst hnc
        simp

/-- Closed instance of C5: a fresh identity, synchronous successful run. -/
theorem c5_witness :
    pr_review_post dbEmpty false (.ok outcome1) =
      ({ request := some .completed, result := some outcome1 },
       [.createRequest .pending, .saveStatus .processing, .invokePipeline,
        .upsertResult, .saveStatus .completed],
       .completedResponse outcome1) :=
  c5_lifecycle.2.1 dbEmpty outcome1 (Or.inl (by decide))

/-- C6: when the stored request is `completed` and a stored result exists,
`post` returns the stored result unchanged, emits no events at all — in
particular no `invokePipeline`, so neither the pipeline nor the completion
collaborator runs — and leaves the database untouched, for either value of
the async flag and any would-be pipeline behaviour. -/
theorem c6_idempotent_completed_fetch :
    ∀ (db : ReviewDB) (a : Bool) (p : Except String ReviewOutcome) (r : ReviewOutcome),
      db.request = some .completed → db.result = some r →
      pr_review_post db a p = (db, [], .alreadyCompleted r) := by
  intro db a p r hreq hres
  obtain ⟨req, res⟩ := db
  simp only at hreq hres
  subst hreq
  subst hres
  rfl

/-- Closed instance of C6: triggering again on a completed identity returns
the stored result with no pipeline invocation, even if a re-run would have
failed. -/
theorem c6_witness :
    pr_review_post dbCompleted true (.error "x") = (dbCompleted, [], .alreadyCompleted outcome1) :=
  c6_idempotent_completed_fetch dbCompleted true (.error "x") outcome1 rfl rfl

/-- C10 (code bug): `post` assigns `review_request.error_message` in the
failure branch, but `error_message` is not a column of the `ReviewRequest`
model, so Django's `save()` persists nothing for it — the error text cannot
be read back.  The rest of the claim does hold: the failed run persists
status `failed`, stores no result, the row remains queryable, and a later
call re-enters the pipeline (an `invokePipeline` event occurs on the retry).
All parts are evaluated at the concrete failing run below. -/
theorem c10_error_not_persisted :
    ("error_message" ∉ reviewRequestFields)
  ∧ (pr_review_post dbEmpty false (.error "boom")).1 =
      { request := some .failed, result := none }
  ∧ PostEvent.upsertResult ∉ (pr_review_post dbEmpty false (.error "boom")).2.1
  ∧ PostEvent.invokePipeline ∈
      (pr_review_post { request := some .failed, result := none } false
        (.ok outcome1)).2.1
  ∧ (pr_review_post { request := some .failed, result := none } false
      (.ok outcome1)).1.request = some .completed := by
  decide

/-! ## C9 -/

/-- The remaining characters of `s` after a prefix `pre`. -/
def urlRest (s pre : String) : List Char :=
  s.data.drop pre.data.length

theorem strData_append (s t : String) : (s ++ t).data = s.data ++ t.data := by
  obtain ⟨sd⟩ := s
  obtain ⟨td⟩ := t
  rfl

theorem startsWithAux_append (p r : List Char) : startsWithAux p (p ++ r) = true := by
  induction p with
  | nil => rfl
  | cons a t ih => simp [startsWithAux, ih]

theorem stripLit_sound : ∀ (p s r : List Char), stripLit p s = some r → s = p ++ r := by
  intro p
  induction p with
  | nil =>
    intro s r h
    simp [stripLit] at h
    simp [h]
  | cons a ps ih =>
    intro s r h
    cases s with
    | nil => simp [stripLit] at h
    | cons b t =>
      unfold stripLit at h
      cases hab : (a == b) with
      | false => rw [hab] at h; simp at h
      | true =>
        rw [hab] at h
        simp only [if_true] at h
        have ht := ih t r h
        have hab2 : a = b := by simpa using hab
        subst hab2
        simp [ht]

/-- The head of a non-empty `dropWhile` result fails the predicate. -/
theorem dropWhile_head_not (p : Char → Bool) (l : List Char) (c : Char) (cs : List Char)
    (h : l.dropWhile p = c :: cs) : p c = false := by
  induction l with
  | nil => simp [List.dropWhile] at h
  | cons a t ih =>
    rw [List.dropWhile] at h
    cases hpa : p a with
    | true => rw [hpa] at h; exact ih h
    | false =>
      rw [hpa] at h
      simp at h
      rw [← h.1]
      exact hpa

theorem segSplit_sound (cs seg rest : List Char) (h : segSplit cs = some (seg, rest)) :
    cs = seg ++ '/' :: rest ∧ seg ≠ [] ∧ seg.all (fun c => c != '/') = true := by
  unfold segSplit at h
  cases h5 : (cs.takeWhile (fun c => c != '/')).isEmpty with
  | true => simp [h5] at h
  | false =>
    simp only [h5, Bool.false_eq_true, if_false] at h
    cases h6 : cs.dropWhile (fun c => c != '/') with
    | nil => rw [h6] at h; simp at h
    | cons c0 rest0 =>
      have hc : (c0 != '/') = false := dropWhile_head_not _ cs c0 rest0 h6
      have hc2 : c0 = '/' := by simpa using hc
      subst hc2
      rw [h6] at h
      simp only [Option.some.injEq, Prod.mk.injEq] at h
      obtain ⟨hseg, hrest⟩ := h
      subst hseg
      subst hrest
      refine ⟨?_, ?_, ?_⟩
      · conv_lhs => rw [← List.takeWhile_append_dropWhile (fun c => c != '/') cs]
        rw [h6]
      · intro hnil
        rw [hnil] at h5
        cases h5
      · rw [List.all_eq_true]
        intro x hx
        exact List.mem_takeWhile_imp (p := fun c => c != '/') hx

/-- Soundness of the URL parser: an accepted URL has
`https://github.com/<owner>/<repo>/pull/<digits>` as a prefix, where the
owner and repo segments are the parsed ones (nonempty, slash-free), the
digit run after `pull/` is nonempty and maximal, and the parsed number is
its decimal value; anything may follow the digit run. -/
theorem parse_github_pr_url_sound (s o r : String) (n : Nat)
    (h : parse_github_pr_url s = some (o, r, n)) :
    pyStartsWith s ("https://github.com/" ++ o ++ "/" ++ r ++ "/pull/") = true
    ∧ o.data ≠ [] ∧ o.data.all (fun c => c != '/') = true
    ∧ r.data ≠ [] ∧ r.data.all (fun c => c != '/') = true
    ∧ (urlRest s ("https://github.com/" ++ o ++ "/" ++ r ++ "/pull/")).takeWhile Char.isDigit ≠ []
    ∧ n = digitsToNat
        ((urlRest s ("https://github.com/" ++ o ++ "/" ++ r ++ "/pull/")).takeWhile Char.isDigit) := by
  unfold parse_github_pr_url at h
  cases h1 : stripLit "https://github.com/".data s.data with
  | none => simp [h1] at h
  | some r1 =>
    simp only [h1] at h
    cases h2 : segSplit r1 with
    | none => simp [h2] at h
    | some p1 =>
      obtain ⟨oseg, r2⟩ := p1
      simp only [h2] at h
      cases h3 : segSplit r2 with
      | none => simp [h3] at h
      | some p2 =>
        obtain ⟨rseg, r3⟩ := p2
        simp only [h3] at h
        cases h4 : stripLit "pull/".data r3 with
        | none => simp [h4] at h
        | some r4 =>
          simp only [h4] at h
          cases h5 : (r4.takeWhile Char.isDigit).isEmpty with
          | true => simp [h5] at h
          | false =>
            simp only [h5, Bool.false_eq_true, if_false, Option.some.injEq,
              Prod.mk.injEq] at h
            obtain ⟨ho, hr, hn⟩ := h
            subst ho
            subst hr
            subst hn
            obtain ⟨hr1, honn, hoall⟩ := segSplit_sound r1 oseg r2 h2
            obtain ⟨hr2, hrnn, hrall⟩ := segSplit_sound r2 rseg r3 h3
            have hs1 := stripLit_sound _ _ _ h1
            have hs4 := stripLit_sound _ _ _ h4
            have hslash : ("/pull/").data = '/' :: "pull/".data := rfl
            have hs : s.data =
                ("https://github.com/" ++ String.mk oseg ++ "/" ++ String.mk rseg ++ "/pull/").data
                  ++ r4 := by
              rw [strData_append, strData_append, strData_append, strData_append]
              rw [hs1, hr1, hr2, hs4, hslash]
              simp
            refine ⟨?_, ?_, hoall, ?_, hrall, ?_, ?_⟩
            · unfold pyStartsWith
              rw [hs]
              exact startsWithAux_append _ _
            · simpa using honn
            · simpa using hrnn
            · unfold urlRest
              rw [hs, List.drop_left]
              intro hnil
              rw [hnil] at h5
              cases h5
            · unfold urlRest
              rw [hs, List.drop_left]

/-- C9 (counterexample): `re.match` anchors only the start of the string, so
the URL `https://github.com/acme/widgets/pull/42/files` — which has trailing
segments after the number and is a well-formed URL, hence passes the
serializer's URLField check — is *accepted* and parsed to
`(acme, widgets, 42)`, while the claim requires it to be rejected. -/
theorem c9_counterexample :
    parse_github_pr_url "https://github.com/acme/widgets/pull/42/files" =
      some ("acme", "widgets", 42) := by
  decide

/-- C9 (amended): the trigger accepts exactly the URLs that *begin with*
`https://github.com/<owner>/<repo>/pull/<number>`: the canonical URL parses
to `(acme, widgets, 42)`; a gitlab.com host and an `/issues/` path are
rejected before any remote call; but trailing characters after the number
are permitted (not rejected), the parsed triple coming from the prefix, as
the soundness part and the trailing-segment example state. -/
theorem c9_url_validation_amended :
    parse_github_pr_url "https://github.com/acme/widgets/pull/42" =
      some ("acme", "widgets", 42)
  ∧ parse_github_pr_url "https://gitlab.com/acme/widgets/pull/42" = none
  ∧ parse_github_pr_url "https://github.com/acme/widgets/issues/42" = none
  ∧ parse_github_pr_url "https://github.com/acme/widgets/pull/42/files" =
      some ("acme", "widgets", 42)
  ∧ (∀ (s o r : String) (n : Nat), parse_github_pr_url s = some (o, r, n) →
      pyStartsWith s ("https://github.com/" ++ o ++ "/" ++ r ++ "/pull/") = true
      ∧ o.data ≠ [] ∧ r.data ≠ []
      ∧ (urlRest s ("https://github.com/" ++ o ++ "/" ++ r ++ "/pull/")).takeWhile
          Char.isDigit ≠ []
      ∧ n = digitsToNat
          ((urlRest s ("https://github.com/" ++ o ++ "/" ++ r ++ "/pull/")).takeWhile
            Char.isDigit)) := by
  refine ⟨by decide, by decide, by decide, by decide, ?_⟩
  intro s o r n h
  obtain ⟨h1, h2, _, h3, _, h4, h5⟩ := parse_github_pr_url_sound s o r n h
  exact ⟨h1, h2, h3, h4, h5⟩

/-- Closed instance of C9's amended statement at the canonical URL. -/
theorem c9_witness :
    pyStartsWith "https://github.com/acme/widgets/pull/42"
        ("https://github.com/" ++ "acme" ++ "/" ++ "widgets" ++ "/pull/") = true ∧
    42 = digitsToNat
        ((urlRest "https://github.com/acme/widgets/pull/42"
          ("https://github.com/" ++ "acme" ++ "/" ++ "widgets" ++ "/pull/")).takeWhile
          Char.isDigit) := by
  have h := (c9_url_validation_amended.2.2.2.2 "https://github.com/acme/widgets/pull/42"
    "acme" "widgets" 42 (by decide))
  exact ⟨h.1, h.2.2.2.2⟩
